import Mathlib

/-!
Shallow embedding of the HOTP security-token application from
`examples/tutorials/hotp/hotp_oracle_complete/main.c` and the synchronous
alarm helper from `libtock-sync/services/alarm.c`, with theorems checking
the natural-language specification's claims against it.

Machine integers are modelled as `Nat` with explicit `% 2^w` where the C
code can overflow; fallible collaborators (key-value store, base32 decode,
encrypt/decrypt, HMAC engine) are passed in as explicit environment values,
and the observable actions of a flow (store writes, code emission, console
error reports) are recorded as an ordered event list.
-/

namespace Hotp

/-! ## Constants and the credential record (main.c lines 36-55) -/

/-- `#define NUM_KEYS 4` -/
def NUM_KEYS : Nat := 4

/-- `int key_digits[NUM_KEYS] = {6, 6, 7, 8};` -/
def key_digits : List Nat := [6, 6, 7, 8]

/-- `typedef struct __attribute__((__packed__)) { uint8_t len; uint8_t iv[16];
uint8_t key[64]; counter_t counter; } hotp_key_t;` with `counter_t = uint64_t`.
`counter` holds values reduced `% 2^64`. -/
structure hotp_key_t where
  len : Nat
  iv : List Nat
  key : List Nat
  counter : Nat
deriving Repr, DecidableEq

/-- The zero-initialized record: `keys` is a file-scope global, so every
field starts zeroed before `initialize_keys` (modelled as `init_keys`) runs. -/
def zero_key : hotp_key_t :=
  { len := 0, iv := List.replicate 16 0, key := List.replicate 64 0, counter := 0 }

/-- `sizeof(hotp_key_t)` for the packed struct: 1 + 16 + 64 + 8. -/
def RECORD_SIZE : Nat := 89

/-! ## HOTP counter serialization and truncation (main.c lines 305-328) -/

/-- `moving_factor[i] = (keys[slot_num].counter >> ((sizeof(counter_t) - i - 1) * 8)) & 0xFF;`
for `i = 0 .. 7` (main.c lines 305-308). -/
def moving_factor (counter : Nat) : List Nat :=
  (List.range 8).map (fun i => (counter >>> ((8 - i - 1) * 8)) &&& 0xFF)

/-- `uint8_t offset = hmac_output_buf[HMAC_OUTPUT_BUF_LEN - 1] & 0x0f;`
(main.c line 320, with `HMAC_OUTPUT_BUF_LEN = 32`). -/
def dynamic_offset (digest : List Nat) : Nat :=
  (digest.getD 31 0) &&& 0x0f

/-- `uint32_t S = (((hmac_output_buf[offset] & 0x7f) << 24)
| ((hmac_output_buf[offset+1] & 0xff) << 16) | ((hmac_output_buf[offset+2] & 0xff) << 8)
| ((hmac_output_buf[offset+3] & 0xff)));` (main.c lines 321-324). All operands stay
below `2^31`, so the C `int` arithmetic never overflows and `Nat` is faithful. -/
def truncate_digest (digest : List Nat) : Nat :=
  let offset := dynamic_offset digest
  (((digest.getD offset 0) &&& 0x7f) <<< 24)
    ||| (((digest.getD (offset + 1) 0) &&& 0xff) <<< 16)
    ||| (((digest.getD (offset + 2) 0) &&& 0xff) <<< 8)
    ||| ((digest.getD (offset + 3) 0) &&& 0xff)

/-- `double digit_count = pow(10, key_digits[slot_num]); S %= (uint32_t)digit_count;`
(main.c lines 327-328). For the exponents that occur (6, 7, 8) `pow` returns the
exactly representable double `10^d`, so the cast yields exactly `10^d`. -/
def hotp_code (digest : List Nat) (d : Nat) : Nat :=
  truncate_digest digest % 10 ^ d

/-! ## Claim-side definitions for C2, following the claim's words -/

/-- Claim C2's serialization: "the counter is serialized as 8 bytes
most-significant byte first": byte `i` is `counter / 2^(8*(7-i)) % 256`. -/
def counter_bytes_spec (counter : Nat) : List Nat :=
  (List.range 8).map (fun i => counter / 2 ^ (8 * (7 - i)) % 256)

/-- Claim C2's truncation, read arithmetically: a big-endian 31-bit value whose
top byte has its high bit masked off, i.e.
`(digest[offset] mod 128)*2^24 + digest[offset+1]*2^16 + digest[offset+2]*2^8 + digest[offset+3]`
with `offset = digest[31] mod 16`, then `code = truncated mod 10^d`. -/
def hotp_code_spec (digest : List Nat) (d : Nat) : Nat :=
  let offset := digest.getD 31 0 % 16
  ((digest.getD offset 0 % 128) * 2 ^ 24
    + digest.getD (offset + 1) 0 * 2 ^ 16
    + digest.getD (offset + 2) 0 * 2 ^ 8
    + digest.getD (offset + 3) 0) % 10 ^ d

/-! ## Decimal rendering (main.c lines 330-337)

`snprintf(hotp_format_buffer, 16, "%.*ld", key_digits[slot_num], S)` renders `S`
in decimal with a *precision* of `key_digits[slot_num]`: per the C standard, the
precision of `%ld` is the minimum number of digits, padded on the left with
zeros. `dec_digits` and `format_decimal` model exactly that conversion. The
buffer is 16 bytes and the rendered length is at most `max d (digits of S)`,
which for `S < 10^8` and `d ≤ 8` never truncates; the subsequent clamping of
`len` to `[0, 16]` (lines 333-337) is inert on these inputs. -/

/-- Decimal digits of `n`, most significant first, via repeated division;
fuel-structured so the kernel can evaluate it. -/
def dec_digits_aux : Nat → Nat → List Char
  | 0, _ => []
  | fuel + 1, n =>
    if n < 10 then [Nat.digitChar n]
    else dec_digits_aux fuel (n / 10) ++ [Nat.digitChar (n % 10)]

/-- Decimal digit string of `n` (always at least one digit, as `%ld` prints). -/
def dec_digits (n : Nat) : List Char :=
  dec_digits_aux (n + 1) n

/-- Model of `snprintf`'s `"%.*ld"` with precision `prec`: the decimal digits,
left-padded with `'0'` up to `prec` characters. -/
def format_decimal (prec : Nat) (val : Nat) : String :=
  let ds := dec_digits val
  String.mk (List.replicate (prec - ds.length) '0' ++ ds)

/-- The string emitted for slot `slot` from truncated value `S`
(main.c lines 326-337): reduce mod `10^digits` then format. -/
def code_string (slot : Nat) (S : Nat) : String :=
  let d := key_digits.getD slot 0
  format_decimal d (S % 10 ^ d)

/-! ## The key-value backing store (main.c lines 104-150)

`kv_set_sync` / `kv_get_sync` address records by the string key
`"hotp-key-<slot>"`, which is an injective function of the slot number, so the
store is modelled as a map from slot numbers. A stored value carries its byte
length (`value_len` as reported by `kv_get_sync`) alongside the decoded record,
so that mis-sized records can be represented. -/

/-- A value held in the backing store: its byte length and, when the length is
`RECORD_SIZE`, the record those bytes deserialize to. -/
structure StoredRecord where
  size : Nat
  record : hotp_key_t
deriving Repr, DecidableEq

/-- The backing key-value store, indexed by slot number (the string key
`"hotp-key-<i>"` is derived injectively from `i`). `none` means `kv_get_sync`
fails for that key (no record, or unreadable). -/
def KVStore := Nat → Option StoredRecord

/-- `kv_set_sync` on the derived key: point update of the store. -/
def kv_set (st : KVStore) (slot : Nat) (v : StoredRecord) : KVStore :=
  fun k => if k = slot then some v else st k

/-! ## Observable events

Each interactive flow is embedded as a function that, besides updating the
in-memory `keys` array and the store, appends the observable actions it
performs, in program order. -/

inductive Event where
  /-- `decrypt(...)` was invoked; `ok` records whether it succeeded. -/
  | decryptOp (ok : Bool)
  /-- `hmac(...)` was invoked; `ok` records whether it succeeded. -/
  | hmacOp (ok : Bool)
  /-- `keys[slot].counter++` executed. -/
  | counterInc (slot : Nat)
  /-- `save_key(slot)` ran its `kv_set_sync` on the serialized record `k`;
  `ok` is the write's success. -/
  | storeWrite (slot : Nat) (ok : Bool) (k : hotp_key_t)
  /-- The generated code was emitted to the output sink (USB HID or console). -/
  | emit (code : String)
  /-- An error was reported on the console (`printf("ERROR...")`). -/
  | errorReport
  /-- `program_default_secret()` was invoked (main.c line 140). -/
  | programDefault
deriving Repr, DecidableEq

/-- `true` exactly on `emit` events. -/
def Event.isEmit : Event → Bool
  | .emit _ => true
  | _ => false

/-- `true` exactly on successful `storeWrite` events for slot `slot`. -/
def Event.isStoreWriteOk (slot : Nat) : Event → Bool
  | .storeWrite s ok _ => s == slot && ok
  | _ => false

/-- `occursBefore p q evs` holds when every `q`-event in `evs` is strictly
preceded by some `p`-event: the first `p` occurs before the first `q`
(vacuously true when no `q` occurs). -/
def occursBefore (p q : Event → Bool) (evs : List Event) : Bool :=
  match evs.findIdx? q with
  | none => true
  | some j =>
    match evs.findIdx? p with
    | none => false
    | some i => i < j

/-! ## save_key (main.c lines 104-118) -/

/-- Environment of one `save_key` call: whether its `kv_set_sync` succeeds. -/
structure SaveEnv where
  save_ok : Bool
deriving Repr, DecidableEq

/-- `save_key(slot_num)`: serializes the in-memory record (`RECORD_SIZE` bytes)
and writes it under the derived key; on failure prints an error and leaves the
store unchanged (main.c lines 112-117). Returns the new store and the events. -/
def save_key (slot : Nat) (k : hotp_key_t) (st : KVStore) (env : SaveEnv) :
    KVStore × List Event :=
  if env.save_ok then
    (kv_set st slot ⟨RECORD_SIZE, k⟩, [Event.storeWrite slot true k])
  else
    (st, [Event.storeWrite slot false k, Event.errorReport])

/-! ## get_next_code (main.c lines 296-356) -/

/-- Environment of one `get_next_code` call: the results of the fallible
collaborators it invokes. `decrypt_ok`/`hmac_ok` record whether `decrypt` and
`hmac` return negative codes — the source reads those return values into
`keylen`/ignores them and branches on neither. `digest` is the content of
`hmac_output_buf` after the call (32 bytes when the HMAC ran). -/
structure GenEnv where
  decrypt_ok : Bool
  hmac_ok : Bool
  digest : List Nat
  save : SaveEnv
deriving Repr, DecidableEq

/-- `get_next_code(slot_num)` (main.c lines 296-356), in source order:
decrypt the stored secret, serialize the counter (`moving_factor`), run the
HMAC, increment the counter (`uint64_t`, hence `% 2^64`), `save_key`, truncate
and format the digest, and emit the code string. Note the source never
branches on the results of `decrypt` or `hmac`. -/
def get_next_code (slot : Nat) (keys : List hotp_key_t) (st : KVStore)
    (env : GenEnv) : List hotp_key_t × KVStore × List Event :=
  let k := keys.getD slot zero_key
  let k' : hotp_key_t := { k with counter := (k.counter + 1) % 2 ^ 64 }
  let keys' := keys.set slot k'
  let (st', saveEvs) := save_key slot k' st env.save
  let code := code_string slot (truncate_digest env.digest)
  (keys', st',
    [Event.decryptOp env.decrypt_ok, Event.hmacOp env.hmac_ok,
     Event.counterInc slot]
    ++ saveEvs ++ [Event.emit code])

/-! ## program_secret (main.c lines 218-243) -/

/-- Environment of one `program_secret` call. `decode` is the result of
`base32_decode` (`none` = negative return); `encrypt` is the result of
`encrypt(plaintext, n, keys[slot].key, 64, keys[slot].iv)` (`none` = negative
return). `cipher`/`iv_out` are the bytes the cipher leaves in the output
buffers `keys[slot].key` / `keys[slot].iv`; the cipher may have written them
even when it fails, since they are passed as raw output buffers. -/
structure ProgEnv where
  decode : Option Nat
  encrypt : Option Nat
  cipher : List Nat
  iv_out : List Nat
  save : SaveEnv
deriving Repr, DecidableEq

/-- `program_secret(slot_num, secret)` (main.c lines 218-243): decode the
base32 secret; on failure report and set `len = 0`. Encrypt the plaintext into
the slot's `key`/`iv` buffers; on failure report and set `len = 0`. On success
set `len` to the ciphertext length, reset `counter` to 0, and `save_key`.
Neither failure path calls `save_key` or touches `counter`. -/
def program_secret (slot : Nat) (keys : List hotp_key_t) (st : KVStore)
    (env : ProgEnv) : List hotp_key_t × KVStore × List Event :=
  let k := keys.getD slot zero_key
  match env.decode with
  | none =>
    (keys.set slot { k with len := 0 }, st, [Event.errorReport])
  | some _ =>
    let kbuf : hotp_key_t := { k with key := env.cipher, iv := env.iv_out }
    match env.encrypt with
    | none =>
      (keys.set slot { kbuf with len := 0 }, st, [Event.errorReport])
    | some clen =>
      let k' : hotp_key_t := { kbuf with len := clen, counter := 0 }
      let (st', saveEvs) := save_key slot k' st env.save
      (keys.set slot k', st', saveEvs)

/-! ## initialize_keys (main.c lines 120-150), modelled as `init_keys` -/

/-- Environment of one boot: the per-slot `save_key` outcomes for the
self-healing writes, and the `program_secret` environment used by
`program_default_secret` (main.c lines 245-250) should it run. -/
structure BootEnv where
  heal_save : Nat → SaveEnv
  default_prog : ProgEnv

/-- The read-validity test of main.c line 135:
`ret != RETURNCODE_SUCCESS || value_len != sizeof(hotp_key_t)`.
`none` models a failed `kv_get_sync`; a present record is invalid when its
size differs from the serialized record size. -/
def slot_read_valid (st : KVStore) (i : Nat) : Bool :=
  match st i with
  | none => false
  | some r => r.size == RECORD_SIZE

/-- One iteration of the `initialize_keys` loop body for slot `i`
(main.c lines 124-147): on an invalid read, zero the slot's `len`, persist the
(zero-initialized global) record, and for slot 0 run `program_default_secret`
— which is `program_secret(0, "test")` bracketed by LED toggles. On a valid
read, copy the stored record into `keys[i]`. -/
def init_slot (env : BootEnv) (i : Nat)
    (acc : List hotp_key_t × KVStore × List Event) :
    List hotp_key_t × KVStore × List Event :=
  let (keys, st, evs) := acc
  if slot_read_valid st i then
    match st i with
    | some r => (keys.set i r.record, st, evs)
    | none => (keys, st, evs)
  else
    let k := keys.getD i zero_key
    let keys₁ := keys.set i { k with len := 0 }
    let (st₁, saveEvs) := save_key i (keys₁.getD i zero_key) st (env.heal_save i)
    if i = 0 then
      let (keys₂, st₂, progEvs) := program_secret 0 keys₁ st₁ env.default_prog
      (keys₂, st₂, evs ++ saveEvs ++ [Event.programDefault] ++ progEvs)
    else
      (keys₁, st₁, evs ++ saveEvs)

/-- `initialize_keys()` (main.c lines 120-150): the loop over the four slots,
starting from the zero-initialized global `keys` array. -/
def init_keys (st : KVStore) (env : BootEnv) :
    List hotp_key_t × KVStore × List Event :=
  (List.range NUM_KEYS).foldl (fun acc i => init_slot env i acc)
    (List.replicate NUM_KEYS zero_key, st, [])

/-! ## The main loop's dispatch (main.c lines 380-404) -/

/-- Which branch of the main loop's if/else chain runs for a button event. -/
inductive DispatchAction where
  /-- `program_new_secret(btn_num)` (hold). -/
  | programNewSecret (slot : Nat)
  /-- `get_next_code(btn_num)` (short press, configured slot). -/
  | generateCode (slot : Nat)
  /-- `printf("HOTP / TOTP slot %d not yet configured.\r\n", ...)`. -/
  | reportUnconfigured (slot : Nat)
  /-- No branch taken (`btn_num ≥ NUM_KEYS` with nonzero out-of-bounds read). -/
  | noAction
deriving Repr, DecidableEq

/-- The if/else chain of main.c lines 393-403, with `held` the value
`button_read` returns after the 500 ms delay. The reads of `keys[btn_num].len`
are modelled totally with `getD`; which concrete indices the C code actually
dereferences is tracked separately by `dispatch_keys_accesses`. -/
def dispatch (btn : Nat) (held : Bool) (keys : List hotp_key_t) :
    DispatchAction :=
  if held then .programNewSecret btn
  else if btn < NUM_KEYS && (keys.getD btn zero_key).len > 0 then
    .generateCode btn
  else if (keys.getD btn zero_key).len == 0 then
    .reportUnconfigured btn
  else .noAction

/-- The indices into the 4-entry `keys` array that the C code dereferences
when dispatching button `btn`, in order. Hold: `program_new_secret` reaches
`keys[btn]` through `program_secret` unless the user aborts with empty input
(`inputNonEmpty = false`). Short press with `btn < NUM_KEYS`: the second
guard reads `keys[btn].len` (and the chosen branch only accesses `btn`
further). Short press with `btn ≥ NUM_KEYS`: `&&` short-circuits past the
second guard, but the third guard (main.c line 401) still reads
`keys[btn_num].len`. -/
def dispatch_keys_accesses (btn : Nat) (held : Bool) (inputNonEmpty : Bool) :
    List Nat :=
  if held then (if inputNonEmpty then [btn] else [])
  else [btn]

/-- One full main-loop iteration after the button callback and hold test:
dispatch, then run the selected flow. `inputNonEmpty` tells whether the user
entered a non-empty secret in `program_new_secret` (empty input aborts before
`program_secret`, main.c lines 286-290). -/
def main_step (btn : Nat) (held : Bool) (inputNonEmpty : Bool)
    (keys : List hotp_key_t) (st : KVStore) (genv : GenEnv) (penv : ProgEnv) :
    List hotp_key_t × KVStore × List Event × DispatchAction :=
  match dispatch btn held keys with
  | .programNewSecret s =>
    if inputNonEmpty then
      let (keys', st', evs) := program_secret s keys st penv
      (keys', st', evs, .programNewSecret s)
    else (keys, st, [], .programNewSecret s)
  | .generateCode s =>
    let (keys', st', evs) := get_next_code s keys st genv
    (keys', st', evs, .generateCode s)
  | .reportUnconfigured s => (keys, st, [], .reportUnconfigured s)
  | .noAction => (keys, st, [], .noAction)

end Hotp

/-! ## The synchronous alarm helper (libtock-sync/services/alarm.c) -/

namespace Alarm

/-- `ms_to_ticks` exactly as written (alarm.c lines 15-30):
`seconds = ms / 10; leftover_millis = ms % 1000;`
`ticks = seconds * frequency + leftover_millis * frequency / 1000` in
`uint64_t` arithmetic (which cannot overflow for 32-bit inputs). -/
def ms_to_ticks (ms frequency : Nat) : Nat :=
  let seconds := ms / 10
  let leftover_millis := ms % 1000
  let milliseconds_per_second := 1000
  seconds * frequency + leftover_millis * frequency / milliseconds_per_second

/-- The conversion the claim (and the function's own doc comment, alarm.c
lines 3-14) requires: `(ms/1000)*f + ((ms mod 1000)*f)/1000`, within one
millisecond's worth of ticks of the true value `ms*f/1000`. -/
def ms_to_ticks_spec (ms frequency : Nat) : Nat :=
  ms / 1000 * frequency + ms % 1000 * frequency / 1000

/-! ## libtocksync_alarm_yield_for_with_timeout (alarm.c lines 46-73)

The wait loop is driven by the kernel's upcall deliveries: each `yield()`
delivers one upcall, which may set the waited-on condition flag, fire the
armed timer (setting `yf_timeout_data.fired`), or be unrelated. The loop is
embedded over the finite list of deliveries the kernel makes; `none` means
the deliveries ran out with the loop still spinning. -/

/-- State of one wait: the caller's condition flag, the shared
`yf_timeout_data.fired` flag, and whether the timer armed by
`libtock_alarm_in_ms` is still pending. -/
structure WaitSt where
  cond : Bool
  fired : Bool
  timerPending : Bool
deriving Repr, DecidableEq

/-- One upcall delivery. -/
inductive KernelEv where
  /-- The awaited operation completed: the callback sets `*cond = true`. -/
  | setCond
  /-- The armed alarm expires: `yf_timeout_cb` sets `fired` (only reachable
  while the timer is pending). -/
  | fireTimer
  /-- An unrelated upcall. -/
  | other
deriving Repr, DecidableEq

/-- Effect of a delivery on the wait state. -/
def applyEv (s : WaitSt) : KernelEv → WaitSt
  | .setCond => { s with cond := true }
  | .fireTimer =>
    if s.timerPending then { s with fired := true, timerPending := false }
    else s
  | .other => s

/-- The `while (!*cond)` loop (alarm.c lines 63-72): if `cond` holds, exit the
loop, `libtock_alarm_cancel(&alarm)` and return success; otherwise if `fired`
holds, return failure (`RETURNCODE_FAIL`); otherwise `yield()` — consume the
next delivery — and re-check. `true` models `RETURNCODE_SUCCESS`. -/
def wait_loop : List KernelEv → WaitSt → Option (Bool × WaitSt)
  | evs, s =>
    if s.cond then some (true, { s with timerPending := false })
    else if s.fired then some (false, s)
    else
      match evs with
      | [] => none
      | e :: rest => wait_loop rest (applyEv s e)

/-- `libtocksync_alarm_yield_for_with_timeout(cond, ms)` (alarm.c lines
58-73): clear the shared `fired` flag, arm the timer, then run the wait loop.
`cond0` is the value of `*cond` at entry. -/
def yield_for_with_timeout (cond0 : Bool) (evs : List KernelEv) :
    Option (Bool × WaitSt) :=
  wait_loop evs { cond := cond0, fired := false, timerPending := true }

/-- `true` when, among the deliveries, the timer fires strictly before any
completion of the awaited operation. -/
def timer_first : List KernelEv → Bool
  | [] => false
  | .setCond :: _ => false
  | .fireTimer :: _ => true
  | .other :: rest => timer_first rest

end Alarm

/-! # Helper lemmas -/

open Hotp Alarm

/-- `x & 0x0f` is reduction mod 16. -/
lemma and_mask_15 (x : Nat) : x &&& 15 = x % 16 := by
  have h := Nat.and_pow_two_sub_one_eq_mod x 4
  norm_num at h
  exact h

/-- `x & 0x7f` is reduction mod 128. -/
lemma and_mask_127 (x : Nat) : x &&& 127 = x % 128 := by
  have h := Nat.and_pow_two_sub_one_eq_mod x 7
  norm_num at h
  exact h

/-- `x & 0xff` is reduction mod 256. -/
lemma and_mask_255 (x : Nat) : x &&& 255 = x % 256 := by
  have h := Nat.and_pow_two_sub_one_eq_mod x 8
  norm_num at h
  exact h

/-- The serialization loop of main.c lines 305-308 produces exactly the
big-endian byte decomposition of the counter. -/
lemma moving_factor_eq_bigendian (c : Nat) :
    moving_factor c = counter_bytes_spec c := by
  unfold moving_factor counter_bytes_spec
  apply List.map_congr_left
  intro i _
  rw [Nat.shiftRight_eq_div_pow, and_mask_255]
  have h : (8 - i - 1) * 8 = 8 * (7 - i) := by omega
  rw [h]

/-- Every `getD` read of a byte list whose members are bytes is a byte. -/
lemma getD_lt_256 {digest : List Nat} (h : ∀ b ∈ digest, b < 256) (j : Nat) :
    digest.getD j 0 < 256 := by
  rcases Nat.lt_or_ge j digest.length with hj | hj
  · rw [List.getD_eq_getElem?_getD, List.getElem?_eq_getElem hj]
    exact h _ (List.getElem_mem hj)
  · rw [List.getD_eq_getElem?_getD, List.getElem?_eq_none hj]
    norm_num

/-- The bitwise-or of the four shifted HOTP bytes is their positional sum:
the operand ranges are disjoint. -/
lemma or_bytes (x y z w : Nat) (hy : y < 256) (hz : z < 256)
    (hw : w < 256) :
    ((x <<< 24) ||| (y <<< 16) ||| (z <<< 8) ||| w)
      = x * 2 ^ 24 + y * 2 ^ 16 + z * 2 ^ 8 + w := by
  rw [Nat.shiftLeft_eq, Nat.shiftLeft_eq, Nat.shiftLeft_eq, Nat.or_assoc,
    Nat.or_assoc]
  have h1 : z * 2 ^ 8 ||| w = z * 2 ^ 8 + w := by
    rw [mul_comm]
    exact (Nat.mul_add_lt_is_or (by norm_num; omega : w < 2 ^ 8) z).symm
  rw [h1]
  have hzw : z * 2 ^ 8 + w < 2 ^ 16 := by norm_num at hz hw ⊢; omega
  have h2 : y * 2 ^ 16 ||| (z * 2 ^ 8 + w) = y * 2 ^ 16 + (z * 2 ^ 8 + w) := by
    rw [mul_comm]
    exact (Nat.mul_add_lt_is_or hzw y).symm
  rw [h2]
  have hyzw : y * 2 ^ 16 + (z * 2 ^ 8 + w) < 2 ^ 24 := by
    norm_num at hy hz hw ⊢; omega
  have h3 : x * 2 ^ 24 ||| (y * 2 ^ 16 + (z * 2 ^ 8 + w))
      = x * 2 ^ 24 + (y * 2 ^ 16 + (z * 2 ^ 8 + w)) := by
    rw [mul_comm]
    exact (Nat.mul_add_lt_is_or hyzw x).symm
  rw [h3]
  ring

/-- A decimal rendering with enough fuel never needs more digit characters
than any power-of-ten bound on its input. -/
lemma dec_digits_aux_length_le :
    ∀ fuel n d, n < fuel → n < 10 ^ d → 1 ≤ d →
      (dec_digits_aux fuel n).length ≤ d := by
  intro fuel
  induction fuel with
  | zero => intro n d h; omega
  | succ fuel ih =>
    intro n d hfuel hlt hd
    unfold dec_digits_aux
    by_cases h10 : n < 10
    · simp [h10]
      omega
    · simp [h10]
      have hd2 : 2 ≤ d := by
        by_contra hcon
        have hd1 : d = 1 := by omega
        rw [hd1] at hlt
        norm_num at hlt
        omega
      have hdivn : n / 10 < n := Nat.div_lt_self (by omega) (by norm_num)
      have hdivpow : n / 10 < 10 ^ (d - 1) := by
        rw [Nat.div_lt_iff_lt_mul (by norm_num : 0 < 10)]
        calc n < 10 ^ d := hlt
        _ = 10 ^ (d - 1) * 10 := by
          rw [← pow_succ]
          congr 1
          omega
      have := ih (n / 10) (d - 1) (by omega) hdivpow (by omega)
      omega

/-- The rendered code string of a slot has exactly that slot's digit count. -/
lemma code_string_length (slot : Nat) (S : Nat) (hslot : slot < NUM_KEYS) :
    (code_string slot S).length = key_digits.getD slot 0 := by
  have hd1 : 1 ≤ key_digits.getD slot 0 := by
    unfold NUM_KEYS at hslot
    interval_cases slot <;> decide
  unfold code_string format_decimal dec_digits
  set d := key_digits.getD slot 0 with hd
  have hval : S % 10 ^ d < 10 ^ d := Nat.mod_lt _ (by positivity)
  have hlen := dec_digits_aux_length_le (S % 10 ^ d + 1) (S % 10 ^ d) d
    (by omega) hval hd1
  simp [String.length]
  omega

/-- `getD` after `set` at the written in-range index reads the written value. -/
lemma getD_set_self {α : Type} (l : List α) (i : Nat) (a d : α)
    (h : i < l.length) : (l.set i a).getD i d = a := by
  rw [List.getD_eq_getElem?_getD, List.getElem?_set_self h]
  rfl

/-- `getD` after `set` at another index is unchanged. -/
lemma getD_set_ne {α : Type} (l : List α) (i j : Nat) (a d : α)
    (h : i ≠ j) : (l.set i a).getD j d = l.getD j d := by
  rw [List.getD_eq_getElem?_getD, List.getElem?_set_ne h,
    ← List.getD_eq_getElem?_getD]

/-! ## Lemmas about the wait loop (for C6) -/

/-- Upcall delivery preserves the invariant that a set `fired` flag means the
timer is no longer pending. -/
lemma applyEv_inv {s : WaitSt} (hinv : s.fired = true → s.timerPending = false)
    (e : KernelEv) :
    (applyEv s e).fired = true → (applyEv s e).timerPending = false := by
  cases e with
  | setCond => simpa [applyEv] using hinv
  | fireTimer =>
    by_cases hp : s.timerPending <;> simp [applyEv, hp]
  | other => simpa [applyEv] using hinv

/-- Whenever the wait loop returns: success implies the condition holds at
return, failure implies the timer fired while the condition was still false,
and in both cases the timer is no longer pending. -/
lemma wait_loop_spec :
    ∀ (evs : List KernelEv) (s : WaitSt) (r : Bool) (s' : WaitSt),
      (s.fired = true → s.timerPending = false) →
      wait_loop evs s = some (r, s') →
      (r = true → s'.cond = true) ∧
      (r = false → s'.fired = true ∧ s'.cond = false) ∧
      s'.timerPending = false := by
  intro evs
  induction evs with
  | nil =>
    intro s r s' hinv h
    unfold wait_loop at h
    by_cases hc : s.cond
    · simp [hc] at h
      obtain ⟨hr, hs⟩ := h
      subst hr; subst hs
      simp [hc]
    · by_cases hf : s.fired
      · simp [hc, hf] at h
        obtain ⟨hr, hs⟩ := h
        subst hr; subst hs
        simp [hc, hf, hinv hf]
      · simp [hc, hf] at h
  | cons e rest ih =>
    intro s r s' hinv h
    unfold wait_loop at h
    by_cases hc : s.cond
    · simp [hc] at h
      obtain ⟨hr, hs⟩ := h
      subst hr; subst hs
      simp [hc]
    · by_cases hf : s.fired
      · simp [hc, hf] at h
        obtain ⟨hr, hs⟩ := h
        subst hr; subst hs
        simp [hc, hf, hinv hf]
      · simp [hc, hf] at h
        exact ih (applyEv s e) r s' (applyEv_inv hinv e) h

/-- When the timer expires strictly before the awaited completion, the wait
loop returns the failure code. -/
lemma wait_loop_timeout :
    ∀ (evs : List KernelEv) (s : WaitSt),
      s.cond = false → s.fired = false → s.timerPending = true →
      timer_first evs = true →
      ∃ s', wait_loop evs s = some (false, s') := by
  intro evs
  induction evs with
  | nil => intro s _ _ _ ht; simp [timer_first] at ht
  | cons e rest ih =>
    intro s hc hf hp ht
    cases e with
    | setCond => simp [timer_first] at ht
    | fireTimer =>
      refine ⟨{ s with fired := true, timerPending := false }, ?_⟩
      unfold wait_loop
      simp [hc, hf, applyEv, hp]
      unfold wait_loop
      simp [hc]
    | other =>
      have ht' : timer_first rest = true := ht
      obtain ⟨s', hs'⟩ := ih s hc hf hp ht'
      refine ⟨s', ?_⟩
      unfold wait_loop
      simp [hc, hf, applyEv]
      exact hs'

/-! ## Lemmas about boot-time load (for C4) -/

/-- `save_key` never reports a default-secret programming event. -/
lemma save_key_no_default (slot : Nat) (k : hotp_key_t) (st : KVStore)
    (e : SaveEnv) : Event.programDefault ∉ (save_key slot k st e).2 := by
  unfold save_key
  rcases Bool.eq_false_or_eq_true e.save_ok with hs | hs <;> rw [hs] <;> simp

/-- `program_secret` never reports a default-secret programming event. -/
lemma program_secret_no_default (slot : Nat) (keys : List hotp_key_t)
    (st : KVStore) (env : ProgEnv) :
    Event.programDefault ∉ (program_secret slot keys st env).2.2 := by
  unfold program_secret save_key
  cases env.decode with
  | none => simp
  | some n =>
    cases env.encrypt with
    | none => simp
    | some m =>
      rcases Bool.eq_false_or_eq_true env.save.save_ok with hs | hs <;>
        rw [hs] <;> simp

/-- `save_key` leaves every other key of the store unchanged. -/
lemma save_key_store_ne (slot : Nat) (k : hotp_key_t) (st : KVStore)
    (e : SaveEnv) (j : Nat) (h : j ≠ slot) :
    (save_key slot k st e).1 j = st j := by
  unfold save_key
  rcases Bool.eq_false_or_eq_true e.save_ok with hs | hs <;> rw [hs] <;>
    simp [kv_set, h]

/-- `program_secret` leaves every other key of the store unchanged. -/
lemma program_secret_store_ne (slot : Nat) (keys : List hotp_key_t)
    (st : KVStore) (env : ProgEnv) (j : Nat) (h : j ≠ slot) :
    (program_secret slot keys st env).2.1 j = st j := by
  unfold program_secret
  cases env.decode with
  | none => simp
  | some n =>
    cases env.encrypt with
    | some m => exact save_key_store_ne _ _ _ _ _ h
    | none => simp

/-- `program_secret` leaves every other slot of the in-memory array unchanged. -/
lemma program_secret_keys_ne (slot : Nat) (keys : List hotp_key_t)
    (st : KVStore) (env : ProgEnv) (j : Nat) (d : hotp_key_t) (h : slot ≠ j) :
    (program_secret slot keys st env).1.getD j d = keys.getD j d := by
  unfold program_secret
  cases env.decode with
  | none => exact getD_set_ne _ _ _ _ _ h
  | some n =>
    cases env.encrypt with
    | none => exact getD_set_ne _ _ _ _ _ h
    | some m => exact getD_set_ne _ _ _ _ _ h

/-- One boot iteration for slot `i` leaves the store unchanged at other keys. -/
lemma init_slot_store_ne (env : BootEnv) (i : Nat)
    (acc : List hotp_key_t × KVStore × List Event) (j : Nat) (h : j ≠ i) :
    (init_slot env i acc).2.1 j = acc.2.1 j := by
  obtain ⟨keys, st, evs⟩ := acc
  unfold init_slot
  dsimp only
  by_cases hv : slot_read_valid st i
  · rw [if_pos hv]
    cases st i <;> rfl
  · rw [if_neg hv]
    by_cases hi : i = 0
    · subst hi
      rw [if_pos rfl]
      rw [program_secret_store_ne _ _ _ _ _ h]
      exact save_key_store_ne _ _ _ _ _ h
    · rw [if_neg hi]
      exact save_key_store_ne _ _ _ _ _ h

/-- `program_secret` preserves the in-memory array's length. -/
lemma program_secret_keys_length (slot : Nat) (keys : List hotp_key_t)
    (st : KVStore) (env : ProgEnv) :
    (program_secret slot keys st env).1.length = keys.length := by
  unfold program_secret
  cases env.decode with
  | none => simp
  | some n => cases env.encrypt with
    | none => simp
    | some m => simp

/-- One boot iteration preserves the in-memory array's length. -/
lemma init_slot_keys_length (env : BootEnv) (i : Nat)
    (acc : List hotp_key_t × KVStore × List Event) :
    (init_slot env i acc).1.length = acc.1.length := by
  obtain ⟨keys, st, evs⟩ := acc
  unfold init_slot
  dsimp only
  by_cases hv : slot_read_valid st i
  · rw [if_pos hv]
    cases st i <;> simp
  · rw [if_neg hv]
    by_cases hi : i = 0
    · subst hi
      rw [if_pos rfl]
      rw [program_secret_keys_length]
      simp
    · rw [if_neg hi]
      simp

/-- One boot iteration for slot `i` leaves other in-memory slots unchanged. -/
lemma init_slot_keys_ne (env : BootEnv) (i : Nat)
    (acc : List hotp_key_t × KVStore × List Event) (j : Nat)
    (d : hotp_key_t) (h : j ≠ i) :
    (init_slot env i acc).1.getD j d = acc.1.getD j d := by
  obtain ⟨keys, st, evs⟩ := acc
  unfold init_slot
  dsimp only
  by_cases hv : slot_read_valid st i
  · rw [if_pos hv]
    cases st i with
    | none => rfl
    | some r => exact getD_set_ne _ _ _ _ _ (Ne.symm h)
  · rw [if_neg hv]
    by_cases hi : i = 0
    · subst hi
      rw [if_pos rfl]
      rw [program_secret_keys_ne _ _ _ _ _ _ (Ne.symm h)]
      exact getD_set_ne _ _ _ _ _ (Ne.symm h)
    · rw [if_neg hi]
      exact getD_set_ne _ _ _ _ _ (Ne.symm h)

/-- One boot iteration only appends events. -/
lemma init_slot_mem_events (env : BootEnv) (i : Nat)
    (acc : List hotp_key_t × KVStore × List Event) (e : Event)
    (he : e ∈ acc.2.2) : e ∈ (init_slot env i acc).2.2 := by
  obtain ⟨keys, st, evs⟩ := acc
  unfold init_slot
  dsimp only
  by_cases hv : slot_read_valid st i
  · rw [if_pos hv]
    cases st i <;> exact he
  · rw [if_neg hv]
    by_cases hi : i = 0
    · subst hi
      rw [if_pos rfl]
      simp only [List.mem_append]
      left; left; left
      exact he
    · rw [if_neg hi]
      simp only [List.mem_append]
      left
      exact he

/-- `save_key` always records its store-write attempt. -/
lemma save_key_event_mem (slot : Nat) (k : hotp_key_t) (st : KVStore)
    (e : SaveEnv) :
    Event.storeWrite slot e.save_ok k ∈ (save_key slot k st e).2 := by
  unfold save_key
  rcases Bool.eq_false_or_eq_true e.save_ok with hs | hs <;> rw [hs] <;> simp

/-- On an invalid read, the boot iteration persists the slot's record with
`len` zeroed (the self-healing empty write of main.c lines 136-137). -/
lemma init_slot_heal_event (env : BootEnv) (i : Nat)
    (acc : List hotp_key_t × KVStore × List Event)
    (hv : slot_read_valid acc.2.1 i = false) (hi : i < acc.1.length) :
    Event.storeWrite i (env.heal_save i).save_ok
        { acc.1.getD i zero_key with len := 0 }
      ∈ (init_slot env i acc).2.2 := by
  obtain ⟨keys, st, evs⟩ := acc
  unfold init_slot
  dsimp only
  dsimp only at hv hi
  rw [if_neg (by rw [hv]; simp)]
  have hset : (keys.set i { keys.getD i zero_key with len := 0 }).getD i zero_key
      = { keys.getD i zero_key with len := 0 } :=
    getD_set_self _ _ _ _ (by simpa using hi)
  by_cases hizero : i = 0
  · subst hizero
    rw [if_pos rfl]
    simp only [List.mem_append]
    left; left; right
    rw [hset]
    exact save_key_event_mem _ _ _ _
  · rw [if_neg hizero]
    simp only [List.mem_append]
    right
    rw [hset]
    exact save_key_event_mem _ _ _ _

/-- A boot iteration reports a default-secret programming exactly when it is
the slot-0 iteration and the slot-0 read was invalid. -/
lemma init_slot_default_iff (env : BootEnv) (i : Nat)
    (acc : List hotp_key_t × KVStore × List Event) :
    (Event.programDefault ∈ (init_slot env i acc).2.2) ↔
      ((i = 0 ∧ slot_read_valid acc.2.1 i = false)
        ∨ Event.programDefault ∈ acc.2.2) := by
  obtain ⟨keys, st, evs⟩ := acc
  unfold init_slot
  dsimp only
  by_cases hv : slot_read_valid st i
  · rw [if_pos hv]
    cases st i with
    | none => simp [hv]
    | some r => simp [hv]
  · rw [if_neg hv]
    by_cases hi : i = 0
    · subst hi
      rw [if_pos rfl]
      constructor
      · intro hmem
        exact Or.inl ⟨rfl, by simpa using hv⟩
      · intro hc
        simp
    · rw [if_neg hi]
      simp only [List.mem_append]
      constructor
      · rintro (hmem | hmem)
        · exact Or.inr hmem
        · exact absurd hmem (save_key_no_default _ _ _ _)
      · intro hc
        rcases hc with ⟨h0, hrest⟩ | hmem
        · exact absurd h0 hi
        · exact Or.inl hmem

/-- Reading validity only depends on the store's value at the slot's key. -/
lemma slot_read_valid_congr (st₁ st₂ : KVStore) (i : Nat)
    (h : st₁ i = st₂ i) : slot_read_valid st₁ i = slot_read_valid st₂ i := by
  unfold slot_read_valid
  rw [h]

/-- The boot loop over `List.range NUM_KEYS`, unrolled. -/
lemma init_keys_eq (st : KVStore) (env : BootEnv) :
    init_keys st env
      = init_slot env 3 (init_slot env 2 (init_slot env 1
          (init_slot env 0
            (List.replicate 4 zero_key, st, ([] : List Event))))) := rfl

/-! # Claim theorems -/

/-- C1: on every code generation for a slot (with a successful store write),
the slot's counter is incremented by exactly 1, the updated record is in the
backing store under the slot's key, and in the flow's event order the
successful store write strictly precedes the emission of the code, so a code
is never emitted before its incremented counter has been written. -/
theorem C1_counter_persisted_before_emit
    (slot : Nat) (keys : List hotp_key_t) (st : KVStore) (env : GenEnv)
    (hslot : slot < NUM_KEYS) (hkeys : keys.length = NUM_KEYS)
    (hsave : env.save.save_ok = true)
    (hctr : (keys.getD slot zero_key).counter + 1 < 2 ^ 64) :
    ((get_next_code slot keys st env).1.getD slot zero_key).counter
        = (keys.getD slot zero_key).counter + 1
    ∧ (get_next_code slot keys st env).2.1 slot
        = some ⟨RECORD_SIZE, (get_next_code slot keys st env).1.getD slot zero_key⟩
    ∧ occursBefore (Event.isStoreWriteOk slot) Event.isEmit
        (get_next_code slot keys st env).2.2 = true := by
  unfold get_next_code save_key
  rw [hsave]
  have hlt : slot < keys.length := by omega
  simp only [getD_set_self _ _ _ _ hlt]
  refine ⟨Nat.mod_eq_of_lt hctr, ?_, ?_⟩
  · simp [kv_set]
  · simp [occursBefore, List.findIdx?_cons, Event.isEmit, Event.isStoreWriteOk]

/-- C1 witness: a concrete run on slot 0 with a fresh store. -/
theorem C1_counter_persisted_before_emit_witness :
    (0 < NUM_KEYS)
    ∧ (List.replicate 4 zero_key : List hotp_key_t).length = NUM_KEYS
    ∧ (SaveEnv.mk true).save_ok = true
    ∧ ((List.replicate 4 zero_key : List hotp_key_t).getD 0 zero_key).counter + 1 < 2 ^ 64
    ∧ (((get_next_code 0 (List.replicate 4 zero_key) (fun _ => none)
          ⟨true, true, List.replicate 32 0, ⟨true⟩⟩).1.getD 0 zero_key).counter
        = ((List.replicate 4 zero_key : List hotp_key_t).getD 0 zero_key).counter + 1
      ∧ (get_next_code 0 (List.replicate 4 zero_key) (fun _ => none)
          ⟨true, true, List.replicate 32 0, ⟨true⟩⟩).2.1 0
        = some ⟨RECORD_SIZE, (get_next_code 0 (List.replicate 4 zero_key) (fun _ => none)
            ⟨true, true, List.replicate 32 0, ⟨true⟩⟩).1.getD 0 zero_key⟩
      ∧ occursBefore (Event.isStoreWriteOk 0) Event.isEmit
          (get_next_code 0 (List.replicate 4 zero_key) (fun _ => none)
            ⟨true, true, List.replicate 32 0, ⟨true⟩⟩).2.2 = true) :=
  ⟨by decide, by decide, rfl, by decide,
    C1_counter_persisted_before_emit 0 (List.replicate 4 zero_key) (fun _ => none)
      ⟨true, true, List.replicate 32 0, ⟨true⟩⟩
      (by decide) (by decide) rfl (by decide)⟩

/-- C2: for every 32-byte digest, counter, and configured digit count, the
code computes the serialization and truncation exactly as the claim states:
big-endian 8-byte counter, `offset = digest[31] mod 16`, truncated value
`(digest[offset] mod 128)*2^24 + digest[offset+1]*2^16 + digest[offset+2]*2^8
+ digest[offset+3]`, and `code = truncated mod 10^d`. -/
theorem C2_hotp_truncation_matches_spec
    (digest : List Nat) (d counter : Nat)
    (hlen : digest.length = 32) (hbytes : ∀ b ∈ digest, b < 256)
    (hd : d ∈ key_digits) :
    moving_factor counter = counter_bytes_spec counter ∧
    hotp_code digest d = hotp_code_spec digest d := by
  refine ⟨moving_factor_eq_bigendian counter, ?_⟩
  unfold hotp_code hotp_code_spec truncate_digest dynamic_offset
  dsimp only
  rw [and_mask_15]
  set off := digest.getD 31 0 % 16 with hoff
  rw [and_mask_127, and_mask_255, and_mask_255, and_mask_255]
  rw [Nat.mod_eq_of_lt (getD_lt_256 hbytes (off + 1)),
    Nat.mod_eq_of_lt (getD_lt_256 hbytes (off + 2)),
    Nat.mod_eq_of_lt (getD_lt_256 hbytes (off + 3))]
  rw [or_bytes _ _ _ _ (getD_lt_256 hbytes (off + 1))
    (getD_lt_256 hbytes (off + 2)) (getD_lt_256 hbytes (off + 3))]

/-- C2 witness: a concrete digest, digit count 6, counter 5. -/
theorem C2_hotp_truncation_matches_spec_witness :
    (List.replicate 32 7 : List Nat).length = 32
    ∧ (∀ b ∈ (List.replicate 32 7 : List Nat), b < 256)
    ∧ 6 ∈ key_digits
    ∧ (moving_factor 5 = counter_bytes_spec 5
      ∧ hotp_code (List.replicate 32 7) 6 = hotp_code_spec (List.replicate 32 7) 6) :=
  ⟨by decide, by decide, by decide,
    C2_hotp_truncation_matches_spec (List.replicate 32 7) 6 5
      (by decide) (by decide) (by decide)⟩

/-- C3 counterexample: the claim says a decrypt failure during the generate
flow is reported and aborts the flow before any code is emitted and before
the counter is incremented. In the code, `get_next_code` never checks the
result of `decrypt` (main.c line 301): in this concrete run the decrypt
fails, yet a code is emitted and the slot counter still advances from 7 to 8,
falsifying the claim. -/
theorem C3_counterexample_decrypt_failure_does_not_abort :
    Event.decryptOp false ∈
      (get_next_code 0
        [{ zero_key with len := 5, counter := 7 }, zero_key, zero_key, zero_key]
        (fun _ => none)
        { decrypt_ok := false, hmac_ok := true, digest := List.replicate 32 0,
          save := ⟨true⟩ }).2.2 ∧
    (get_next_code 0
        [{ zero_key with len := 5, counter := 7 }, zero_key, zero_key, zero_key]
        (fun _ => none)
        { decrypt_ok := false, hmac_ok := true, digest := List.replicate 32 0,
          save := ⟨true⟩ }).2.2.any Event.isEmit = true ∧
    ((get_next_code 0
        [{ zero_key with len := 5, counter := 7 }, zero_key, zero_key, zero_key]
        (fun _ => none)
        { decrypt_ok := false, hmac_ok := true, digest := List.replicate 32 0,
          save := ⟨true⟩ }).1.getD 0 zero_key).counter = 8 := by decide

/-- C3 (amended): decrypt and HMAC failures during the generate flow do not
abort it — `get_next_code` ignores both results and proceeds to increment the
counter and emit a code regardless; per-operation errors never terminate the
main input loop (`main_step` is total, so the loop always reaches its next
iteration). -/
theorem C3_amended_errors_do_not_abort
    (slot : Nat) (keys : List hotp_key_t) (st : KVStore) (env : GenEnv)
    (hslot : slot < NUM_KEYS) (hkeys : keys.length = NUM_KEYS)
    (herr : env.decrypt_ok = false ∨ env.hmac_ok = false)
    (hctr : (keys.getD slot zero_key).counter + 1 < 2 ^ 64) :
    (get_next_code slot keys st env).2.2.any Event.isEmit = true ∧
    ((get_next_code slot keys st env).1.getD slot zero_key).counter
      = (keys.getD slot zero_key).counter + 1 := by
  unfold get_next_code save_key
  have hlt : slot < keys.length := by omega
  rcases Bool.eq_false_or_eq_true env.save.save_ok with hs | hs <;>
    rw [hs] <;>
    refine ⟨by simp [Event.isEmit], ?_⟩ <;>
    simp only [getD_set_self _ _ _ _ hlt] <;>
    exact Nat.mod_eq_of_lt hctr

/-- C3 amended witness: a concrete failing-decrypt run. -/
theorem C3_amended_errors_do_not_abort_witness :
    (0 < NUM_KEYS)
    ∧ (List.replicate 4 zero_key : List hotp_key_t).length = NUM_KEYS
    ∧ ((⟨false, true, List.replicate 32 0, ⟨true⟩⟩ : GenEnv).decrypt_ok = false
        ∨ (⟨false, true, List.replicate 32 0, ⟨true⟩⟩ : GenEnv).hmac_ok = false)
    ∧ ((get_next_code 0 (List.replicate 4 zero_key) (fun _ => none)
          ⟨false, true, List.replicate 32 0, ⟨true⟩⟩).2.2.any Event.isEmit = true
      ∧ ((get_next_code 0 (List.replicate 4 zero_key) (fun _ => none)
          ⟨false, true, List.replicate 32 0, ⟨true⟩⟩).1.getD 0 zero_key).counter
        = ((List.replicate 4 zero_key : List hotp_key_t).getD 0 zero_key).counter + 1) :=
  ⟨by decide, by decide, Or.inl rfl,
    C3_amended_errors_do_not_abort 0 (List.replicate 4 zero_key) (fun _ => none)
      ⟨false, true, List.replicate 32 0, ⟨true⟩⟩
      (by decide) (by decide) (Or.inl rfl) (by decide)⟩

/-- C4 counterexample: the claim says the default secret is programmed into
slot 0 only when no record previously existed for it, not when a record
existed but was mis-sized. In the code, `initialize_keys` calls
`program_default_secret()` whenever the slot-0 read fails *or* its size
mismatches (main.c lines 135-141). Here a slot-0 record exists (size 88,
one byte short of the 89-byte serialized size), yet the default secret is
programmed, falsifying the claim. -/
theorem C4_counterexample_default_programmed_despite_existing_record :
    ((fun i => if i = 0 then some ⟨88, zero_key⟩
      else some ⟨RECORD_SIZE, zero_key⟩ : KVStore) 0).isSome = true ∧
    Event.programDefault ∈
      (init_keys
        (fun i => if i = 0 then some ⟨88, zero_key⟩
          else some ⟨RECORD_SIZE, zero_key⟩)
        { heal_save := fun _ => ⟨true⟩,
          default_prog :=
            { decode := some 4, encrypt := some 16,
              cipher := List.replicate 64 1, iv_out := List.replicate 16 1,
              save := ⟨true⟩ } }).2.2 := by decide

/-- C4 (amended): during boot-time load, every slot whose record cannot be
read or whose size mismatches is treated as unconfigured and an empty
(zero-length) record is immediately persisted; the fixed default secret is
programmed into slot 0 exactly when slot 0's read fails or is mis-sized —
including when a record previously existed but was corrupt or mis-sized. -/
theorem C4_amended_self_healing_and_default (st : KVStore) (env : BootEnv) :
    (Event.programDefault ∈ (init_keys st env).2.2
      ↔ slot_read_valid st 0 = false)
    ∧ (∀ i, i < NUM_KEYS → slot_read_valid st i = false →
        Event.storeWrite i (env.heal_save i).save_ok zero_key
          ∈ (init_keys st env).2.2) := by
  rw [init_keys_eq]
  set a0 : List hotp_key_t × KVStore × List Event
    := (List.replicate 4 zero_key, st, ([] : List Event)) with ha0
  set a1 := init_slot env 0 a0 with ha1
  set a2 := init_slot env 1 a1 with ha2
  set a3 := init_slot env 2 a2 with ha3
  have hlen0 : a0.1.length = 4 := rfl
  have hlen1 : a1.1.length = 4 := by
    rw [ha1, init_slot_keys_length]; exact hlen0
  have hlen2 : a2.1.length = 4 := by
    rw [ha2, init_slot_keys_length]; exact hlen1
  constructor
  · rw [init_slot_default_iff, ha3, init_slot_default_iff, ha2,
      init_slot_default_iff, ha1, init_slot_default_iff, ha0]
    simp
  · intro i hi hvi
    replace hi : i < 4 := hi
    interval_cases i
    · have h0 : Event.storeWrite 0 (env.heal_save 0).save_ok zero_key
          ∈ a1.2.2 := by
        have hh := init_slot_heal_event env 0 a0 (by exact hvi)
          (by rw [hlen0]; norm_num)
        simpa using hh
      exact init_slot_mem_events env 3 _ _
        (init_slot_mem_events env 2 _ _
          (init_slot_mem_events env 1 _ _ h0))
    · have hst1 : a1.2.1 1 = st 1 := init_slot_store_ne env 0 a0 1 (by norm_num)
      have hv1 : slot_read_valid a1.2.1 1 = false := by
        rw [slot_read_valid_congr _ _ _ hst1]; exact hvi
      have hk1 : a1.1.getD 1 zero_key = zero_key := by
        rw [ha1, init_slot_keys_ne env 0 a0 1 zero_key (by norm_num)]
        rfl
      have h1 : Event.storeWrite 1 (env.heal_save 1).save_ok zero_key
          ∈ a2.2.2 := by
        have hh := init_slot_heal_event env 1 a1 hv1 (by rw [hlen1]; norm_num)
        rw [hk1] at hh
        simpa using hh
      exact init_slot_mem_events env 3 _ _
        (init_slot_mem_events env 2 _ _ h1)
    · have hst1 : a1.2.1 2 = st 2 := init_slot_store_ne env 0 a0 2 (by norm_num)
      have hst2 : a2.2.1 2 = st 2 := by
        rw [ha2, init_slot_store_ne env 1 a1 2 (by norm_num)]
        exact hst1
      have hv2 : slot_read_valid a2.2.1 2 = false := by
        rw [slot_read_valid_congr _ _ _ hst2]; exact hvi
      have hk2 : a2.1.getD 2 zero_key = zero_key := by
        rw [ha2, init_slot_keys_ne env 1 a1 2 zero_key (by norm_num),
          ha1, init_slot_keys_ne env 0 a0 2 zero_key (by norm_num)]
        rfl
      have h2 : Event.storeWrite 2 (env.heal_save 2).save_ok zero_key
          ∈ a3.2.2 := by
        have hh := init_slot_heal_event env 2 a2 hv2 (by rw [hlen2]; norm_num)
        rw [hk2] at hh
        simpa using hh
      exact init_slot_mem_events env 3 _ _ h2
    · have hst1 : a1.2.1 3 = st 3 := init_slot_store_ne env 0 a0 3 (by norm_num)
      have hst2 : a2.2.1 3 = st 3 := by
        rw [ha2, init_slot_store_ne env 1 a1 3 (by norm_num)]
        exact hst1
      have hst3 : a3.2.1 3 = st 3 := by
        rw [ha3, init_slot_store_ne env 2 a2 3 (by norm_num)]
        exact hst2
      have hv3 : slot_read_valid a3.2.1 3 = false := by
        rw [slot_read_valid_congr _ _ _ hst3]; exact hvi
      have hk3 : a3.1.getD 3 zero_key = zero_key := by
        rw [ha3, init_slot_keys_ne env 2 a2 3 zero_key (by norm_num),
          ha2, init_slot_keys_ne env 1 a1 3 zero_key (by norm_num),
          ha1, init_slot_keys_ne env 0 a0 3 zero_key (by norm_num)]
        rfl
      have hlen3 : a3.1.length = 4 := by
        rw [ha3, init_slot_keys_length]; exact hlen2
      have hh := init_slot_heal_event env 3 a3 hv3 (by rw [hlen3]; norm_num)
      rw [hk3] at hh
      simpa using hh

/-- C4 amended witness: an empty backing store — every slot read fails, slot 1
gets its empty record persisted, and the slot-0 default is programmed. -/
theorem C4_amended_self_healing_and_default_witness :
    Event.storeWrite 1 true zero_key
      ∈ (init_keys (fun _ => none)
          { heal_save := fun _ => ⟨true⟩,
            default_prog :=
              { decode := some 4, encrypt := some 16,
                cipher := List.replicate 64 1, iv_out := List.replicate 16 1,
                save := ⟨true⟩ } }).2.2 :=
  (C4_amended_self_healing_and_default (fun _ => none)
      { heal_save := fun _ => ⟨true⟩,
        default_prog :=
          { decode := some 4, encrypt := some 16,
            cipher := List.replicate 64 1, iv_out := List.replicate 16 1,
            save := ⟨true⟩ } }).2 1 (by decide) (by decide)

/-- C5: the claim (and the function's own documentation, alarm.c lines 3-14)
requires `ms_to_ticks(ms) = (ms/1000)*f + ((ms mod 1000)*f)/1000`, within one
millisecond of the true conversion. The code computes `seconds = ms / 10`
instead of `ms / 1000` (alarm.c line 21), so for the application's 500 ms
hold-detection delay at a 1000 Hz alarm it returns 50500 ticks (≈50.5 s)
instead of 500 — a code bug contradicting the function's doc comment. -/
theorem C5_ms_to_ticks_divergence :
    ms_to_ticks 500 1000 = 50500 ∧ ms_to_ticks_spec 500 1000 = 500 ∧
    ms_to_ticks 500 1000 ≠ ms_to_ticks_spec 500 1000 := by decide

/-- C6: whenever `libtocksync_alarm_yield_for_with_timeout` returns success
the waited-on condition is already true (no spurious wakeup); whenever it
returns failure the timer fired while the condition was still false; in
either case the armed timer is no longer pending at return (fired or
cancelled), so no stale expiration can fire into a later wait; and when the
timer expires strictly before the condition is set, the call does return the
timeout failure. -/
theorem C6_yield_for_with_timeout_correct (cond0 : Bool) (evs : List KernelEv) :
    (∀ r s', yield_for_with_timeout cond0 evs = some (r, s') →
      (r = true → s'.cond = true) ∧
      (r = false → s'.fired = true ∧ s'.cond = false) ∧
      s'.timerPending = false)
    ∧ (cond0 = false → timer_first evs = true →
        ∃ s', yield_for_with_timeout cond0 evs = some (false, s')) := by
  constructor
  · intro r s' h
    exact wait_loop_spec evs _ r s' (by simp) h
  · intro hc ht
    subst hc
    exact wait_loop_timeout evs _ rfl rfl rfl ht

/-- C6 witness: a wait whose condition is already true at entry returns
success with the timer cancelled. -/
theorem C6_yield_for_with_timeout_correct_witness :
    (true = true → (WaitSt.mk true false false).cond = true) ∧
    (true = false → (WaitSt.mk true false false).fired = true
      ∧ (WaitSt.mk true false false).cond = false) ∧
    (WaitSt.mk true false false).timerPending = false :=
  (C6_yield_for_with_timeout_correct true []).1 true (WaitSt.mk true false false) rfl

/-- C7: if decoding or encrypting the user-supplied secret fails, the program
operation leaves the slot unconfigured (`len = 0`), reports the error on the
console, writes nothing to the backing store (the store is returned exactly
as it was), and does not reset the slot's counter. -/
theorem C7_program_failure_leaves_slot_unconfigured
    (slot : Nat) (keys : List hotp_key_t) (st : KVStore) (env : ProgEnv)
    (hslot : slot < keys.length)
    (hfail : env.decode = none ∨ env.encrypt = none) :
    ((program_secret slot keys st env).1.getD slot zero_key).len = 0 ∧
    ((program_secret slot keys st env).1.getD slot zero_key).counter
      = (keys.getD slot zero_key).counter ∧
    (program_secret slot keys st env).2.1 = st ∧
    Event.errorReport ∈ (program_secret slot keys st env).2.2 := by
  unfold program_secret
  cases hdec : env.decode with
  | none =>
    simp only [hdec, getD_set_self _ _ _ _ hslot]
    simp
  | some n =>
    have henc : env.encrypt = none := by
      rcases hfail with h | h
      · rw [hdec] at h; exact absurd h (by simp)
      · exact h
    simp only [hdec, henc, getD_set_self _ _ _ _ hslot]
    simp

/-- C7 witness: a concrete decode failure on slot 0. -/
theorem C7_program_failure_leaves_slot_unconfigured_witness :
    (0 < ([{ zero_key with counter := 9 }] : List hotp_key_t).length)
    ∧ ((⟨none, none, [], [], ⟨true⟩⟩ : ProgEnv).decode = none
        ∨ (⟨none, none, [], [], ⟨true⟩⟩ : ProgEnv).encrypt = none)
    ∧ (((program_secret 0 [{ zero_key with counter := 9 }] (fun _ => none)
          ⟨none, none, [], [], ⟨true⟩⟩).1.getD 0 zero_key).len = 0
      ∧ ((program_secret 0 [{ zero_key with counter := 9 }] (fun _ => none)
          ⟨none, none, [], [], ⟨true⟩⟩).1.getD 0 zero_key).counter
        = (([{ zero_key with counter := 9 }] : List hotp_key_t).getD 0 zero_key).counter
      ∧ (program_secret 0 [{ zero_key with counter := 9 }] (fun _ => none)
          ⟨none, none, [], [], ⟨true⟩⟩).2.1 = (fun _ => none)
      ∧ Event.errorReport ∈ (program_secret 0 [{ zero_key with counter := 9 }]
          (fun _ => none) ⟨none, none, [], [], ⟨true⟩⟩).2.2) :=
  ⟨by decide, Or.inl rfl,
    C7_program_failure_leaves_slot_unconfigured 0 [{ zero_key with counter := 9 }]
      (fun _ => none) ⟨none, none, [], [], ⟨true⟩⟩ (by decide) (Or.inl rfl)⟩

/-- C8: a short press on an in-range slot whose stored key length is 0 does
not run code generation: the loop iteration leaves the key array and the
store untouched, performs no observable action, and takes the
report-unconfigured branch. -/
theorem C8_unconfigured_short_press_reports_and_preserves
    (btn : Nat) (keys : List hotp_key_t) (st : KVStore)
    (genv : GenEnv) (penv : ProgEnv) (inputNonEmpty : Bool)
    (hbtn : btn < NUM_KEYS)
    (hlen : (keys.getD btn zero_key).len = 0) :
    main_step btn false inputNonEmpty keys st genv penv
      = (keys, st, [], DispatchAction.reportUnconfigured btn) := by
  unfold main_step dispatch
  simp only [List.getD_eq_getElem?_getD] at hlen
  simp [hbtn, hlen]

/-- C8 witness: a short press on unconfigured slot 1. -/
theorem C8_unconfigured_short_press_reports_and_preserves_witness :
    (1 < NUM_KEYS)
    ∧ ((List.replicate 4 zero_key : List hotp_key_t).getD 1 zero_key).len = 0
    ∧ main_step 1 false true (List.replicate 4 zero_key) (fun _ => none)
        ⟨true, true, List.replicate 32 0, ⟨true⟩⟩ ⟨none, none, [], [], ⟨true⟩⟩
      = (List.replicate 4 zero_key, (fun _ => none),
          [], DispatchAction.reportUnconfigured 1) :=
  ⟨by decide, by decide,
    C8_unconfigured_short_press_reports_and_preserves 1 (List.replicate 4 zero_key)
      (fun _ => none) ⟨true, true, List.replicate 32 0, ⟨true⟩⟩
      ⟨none, none, [], [], ⟨true⟩⟩ true (by decide) (by decide)⟩

/-- C9: the emitted code is the truncated value reduced mod `10^d`, rendered
as a decimal string zero-padded on the left to exactly the slot's digit
count; in particular value 1234 renders as "001234" at 6 digits (slot 0) and
as "00001234" at 8 digits (slot 3). -/
theorem C9_code_rendered_zero_padded (slot : Nat) (S : Nat)
    (hslot : slot < NUM_KEYS) :
    (code_string slot S).length = key_digits.getD slot 0 ∧
    code_string 0 1234 = "001234" ∧
    code_string 3 1234 = "00001234" :=
  ⟨code_string_length slot S hslot, by decide, by decide⟩

/-- C9 witness: slot 2 renders every value to exactly 7 characters. -/
theorem C9_code_rendered_zero_padded_witness :
    (2 < NUM_KEYS)
    ∧ ((code_string 2 98765432).length = key_digits.getD 2 0
      ∧ code_string 0 1234 = "001234"
      ∧ code_string 3 1234 = "00001234") :=
  ⟨by decide, C9_code_rendered_zero_padded 2 98765432 (by decide)⟩

/-- C10: the claim says every access to the 4-entry `keys` array performed by
the main loop's dispatch uses an index below `NUM_KEYS`, for every button
index the driver can report. The code enables interrupts on every button the
board exposes (main.c lines 92-94), and for a reported index of 4 both the
hold branch (`program_new_secret(4)`, no bounds check, main.c line 394) and
the short-press unconfigured check (`keys[btn_num].len == 0`, main.c line
401, reached because `&&` short-circuits past the guarded branch) dereference
`keys[4]` — one past the end of the 4-entry array. The guarded generate
branch shows the bound was intended, so this is a memory-safety bug in the
code. -/
theorem C10_keys_access_out_of_bounds :
    dispatch_keys_accesses 4 false true = [4] ∧
    dispatch_keys_accesses 4 true true = [4] ∧
    ¬(4 < NUM_KEYS) := by decide
